import Mathlib

/-
Verification of the POST-policy builder and signer of timonwong/ali-oss-addons.

Strings are modelled as lists of byte values (`List Nat`, each entry < 256),
matching Go strings, which are byte strings.  Helper `bs` turns a Lean string
literal into its UTF-8 byte list.  Recursions that consume a variable number
of bytes per step are written with an explicit fuel argument (instantiated
with the list length) so that every definition is structurally recursive and
kernel-evaluable.
-/

/-- UTF-8 encoding of one character (standard UTF-8, used only to build
concrete byte strings from Lean literals). -/
def utf8Bytes (c : Char) : List Nat :=
  let n := c.toNat
  if n < 128 then [n]
  else if n < 2048 then [192 + n / 64, 128 + n % 64]
  else if n < 65536 then [224 + n / 4096, 128 + n / 64 % 64, 128 + n % 64]
  else [240 + n / 262144, 128 + n / 4096 % 64, 128 + n / 64 % 64, 128 + n % 64]

/-- Byte list of a Lean string literal (UTF-8). -/
def bs (s : String) : List Nat := s.data.foldr (fun c acc => utf8Bytes c ++ acc) []

/-- Lowercase hexadecimal digit, modelling indexing into the source's
constant `_hex = "0123456789abcdef"`. -/
def hexDigit (n : Nat) : Nat := if n < 10 then 48 + n else 87 + n

/-- Model of `tryAddRuneSelf` (part_000 lines 255-279): for a byte below
`utf8.RuneSelf` (0x80) it returns the bytes appended to the buffer; for a
byte at or above 0x80 it returns `none` (the Go function returns `ok=false`).
Bytes at or above 0x20 other than backslash and double quote pass through;
backslash and quote get a leading backslash; newline, carriage return and tab
become two-byte escapes; remaining bytes below 0x20 become a lowercase
unicode escape built from `_hex`. -/
def tryAddRuneSelf (b : Nat) : Option (List Nat) :=
  if 128 ≤ b then none
  else if 32 ≤ b ∧ b ≠ 92 ∧ b ≠ 34 then some [b]
  else if b = 92 ∨ b = 34 then some [92, b]
  else if b = 10 then some [92, 110]
  else if b = 13 then some [92, 114]
  else if b = 9 then some [92, 116]
  else some ([92, 117, 48, 48] ++ [hexDigit (b / 16), hexDigit (b % 16)])

/-- Continuation byte test of Go's `unicode/utf8` decoder: 0x80..0xBF. -/
def isCont (b : Nat) : Prop := 128 ≤ b ∧ b ≤ 191

instance (b : Nat) : Decidable (isCont b) := by unfold isCont; infer_instance

/-- Accept range for the second byte of a three-byte sequence, by first byte,
from Go's `unicode/utf8` acceptRanges table (0xE0 excludes overlong forms,
0xED excludes surrogates). -/
def second3ok (b b1 : Nat) : Prop :=
  if b = 224 then 160 ≤ b1 ∧ b1 ≤ 191
  else if b = 237 then 128 ≤ b1 ∧ b1 ≤ 159
  else isCont b1

instance (b b1 : Nat) : Decidable (second3ok b b1) := by
  unfold second3ok; infer_instance

/-- Accept range for the second byte of a four-byte sequence, by first byte,
from Go's `unicode/utf8` acceptRanges table (0xF0 excludes overlong forms,
0xF4 caps at U+10FFFF). -/
def second4ok (b b1 : Nat) : Prop :=
  if b = 240 then 144 ≤ b1 ∧ b1 ≤ 191
  else if b = 244 then 128 ≤ b1 ∧ b1 ≤ 143
  else isCont b1

instance (b b1 : Nat) : Decidable (second4ok b b1) := by
  unfold second4ok; infer_instance

/-- The escape emitted by `tryAppendRuneError` (part_000 lines 281-287) when
`utf8.DecodeRuneInString` reports an invalid byte: the bytes of
the replacement escape. -/
def runeErrorEscape : List Nat := [92, 117, 102, 102, 102, 100]

/-- Fueled model of `safeAppendString` (part_000 lines 234-252).  One fuel
unit is spent per loop iteration; fuel equal to the string length always
suffices because every iteration consumes at least one byte.  The multi-byte
branches inline Go's `utf8.DecodeRuneInString`: a byte that does not start a
valid sequence (or a truncated/ill-formed sequence) yields `RuneError` with
size 1, which `tryAppendRuneError` turns into the replacement escape while
advancing one byte; a valid multi-byte sequence is copied unchanged. -/
def safeAppendStringGo : Nat → List Nat → List Nat
| _, [] => []
| 0, _ => []
| fuel + 1, b :: rest =>
  match tryAddRuneSelf b with
  | some e => e ++ safeAppendStringGo fuel rest
  | none =>
    if b ≤ 193 ∨ 245 ≤ b then runeErrorEscape ++ safeAppendStringGo fuel rest
    else if b ≤ 223 then
      match rest with
      | b1 :: rest1 =>
        if isCont b1 then b :: b1 :: safeAppendStringGo fuel rest1
        else runeErrorEscape ++ safeAppendStringGo fuel rest
      | [] => runeErrorEscape ++ safeAppendStringGo fuel []
    else if b ≤ 239 then
      match rest with
      | b1 :: b2 :: rest2 =>
        if second3ok b b1 ∧ isCont b2 then b :: b1 :: b2 :: safeAppendStringGo fuel rest2
        else runeErrorEscape ++ safeAppendStringGo fuel rest
      | _ => runeErrorEscape ++ safeAppendStringGo fuel rest
    else
      match rest with
      | b1 :: b2 :: b3 :: rest3 =>
        if second4ok b b1 ∧ isCont b2 ∧ isCont b3 then
          b :: b1 :: b2 :: b3 :: safeAppendStringGo fuel rest3
        else runeErrorEscape ++ safeAppendStringGo fuel rest
      | _ => runeErrorEscape ++ safeAppendStringGo fuel rest

/-- Model of `safeAppendString` applied to an empty buffer: the escaped form
of the byte string `s`. -/
def safeAppendString (s : List Nat) : List Nat := safeAppendStringGo s.length s

/-- Modelled from the spec: per-byte escaping rule for a single-byte
character, following the spec's escaping sentence word for word: escape
backslash and double quote with a leading backslash; newline, carriage
return and tab to two-character escapes; any other byte below 0x20 as a
lowercase unicode escape; all other bytes pass through unescaped. -/
def escByteSpec (b : Nat) : List Nat :=
  if b = 92 ∨ b = 34 then [92, b]
  else if b = 10 then [92, 110]
  else if b = 13 then [92, 114]
  else if b = 9 then [92, 116]
  else if b < 32 then [92, 117, 48, 48, hexDigit (b / 16), hexDigit (b % 16)]
  else [b]

/-- Modelled from the spec: the whole escaping rule.  Single bytes are
escaped per `escByteSpec`; a byte that starts a valid multi-byte UTF-8
sequence passes through together with its continuation bytes; an invalid
UTF-8 byte is replaced by the replacement character escape. -/
def escapeSpecGo : Nat → List Nat → List Nat
| _, [] => []
| 0, _ => []
| fuel + 1, b :: rest =>
  if b < 128 then escByteSpec b ++ escapeSpecGo fuel rest
  else if b ≤ 193 ∨ 245 ≤ b then runeErrorEscape ++ escapeSpecGo fuel rest
  else if b ≤ 223 then
    match rest with
    | b1 :: rest1 =>
      if isCont b1 then b :: b1 :: escapeSpecGo fuel rest1
      else runeErrorEscape ++ escapeSpecGo fuel rest
    | [] => runeErrorEscape ++ escapeSpecGo fuel []
  else if b ≤ 239 then
    match rest with
    | b1 :: b2 :: rest2 =>
      if second3ok b b1 ∧ isCont b2 then b :: b1 :: b2 :: escapeSpecGo fuel rest2
      else runeErrorEscape ++ escapeSpecGo fuel rest
    | _ => runeErrorEscape ++ escapeSpecGo fuel rest
  else
    match rest with
    | b1 :: b2 :: b3 :: rest3 =>
      if second4ok b b1 ∧ isCont b2 ∧ isCont b3 then
        b :: b1 :: b2 :: b3 :: escapeSpecGo fuel rest3
      else runeErrorEscape ++ escapeSpecGo fuel rest
    | _ => runeErrorEscape ++ escapeSpecGo fuel rest

/-- Modelled from the spec: the escaping rule over a whole byte string. -/
def escapeSpec (s : List Nat) : List Nat := escapeSpecGo s.length s

/-- Rune set of Go's `unicode.IsSpace`: latin-1 whitespace plus the
White_Space table entries. -/
def isSpaceRune (r : Nat) : Prop :=
  r = 9 ∨ r = 10 ∨ r = 11 ∨ r = 12 ∨ r = 13 ∨ r = 32 ∨ r = 133 ∨ r = 160 ∨
  r = 5760 ∨ (8192 ≤ r ∧ r ≤ 8202) ∨ r = 8232 ∨ r = 8233 ∨ r = 8239 ∨
  r = 8287 ∨ r = 12288

instance (r : Nat) : Decidable (isSpaceRune r) := by
  unfold isSpaceRune; infer_instance

/-- Fueled model of the test `strings.TrimSpace(s) == ""`: true exactly when
every rune decoded from the byte string (per `utf8.DecodeRuneInString`) is
whitespace per `unicode.IsSpace`.  An invalid UTF-8 byte decodes to the
replacement rune, which is not whitespace, so it yields false. -/
def allSpaceGo : Nat → List Nat → Bool
| _, [] => true
| 0, _ => false
| fuel + 1, b :: rest =>
  if b < 128 then decide (isSpaceRune b) && allSpaceGo fuel rest
  else if b ≤ 193 ∨ 245 ≤ b then false
  else if b ≤ 223 then
    match rest with
    | b1 :: rest1 =>
      if isCont b1 then
        decide (isSpaceRune ((b - 192) * 64 + (b1 - 128))) && allSpaceGo fuel rest1
      else false
    | [] => false
  else if b ≤ 239 then
    match rest with
    | b1 :: b2 :: rest2 =>
      if second3ok b b1 ∧ isCont b2 then
        decide (isSpaceRune ((b - 224) * 4096 + (b1 - 128) * 64 + (b2 - 128))) &&
          allSpaceGo fuel rest2
      else false
    | _ => false
  else
    match rest with
    | b1 :: b2 :: b3 :: rest3 =>
      if second4ok b b1 ∧ isCont b2 ∧ isCont b3 then
        decide (isSpaceRune
            ((b - 240) * 262144 + (b1 - 128) * 4096 + (b2 - 128) * 64 + (b3 - 128))) &&
          allSpaceGo fuel rest3
      else false
    | _ => false

/-- Model of `strings.TrimSpace(s) == ""` over the byte string `s`. -/
def allSpace (s : List Nat) : Bool := allSpaceGo s.length s

/-- Fueled decimal digit expansion, modelling `strconv.AppendInt`'s digit
production for non-negative values (most significant digit first). -/
def natDigsAux : Nat → Nat → List Nat
| 0, _ => []
| fuel + 1, n => if n < 10 then [48 + n] else natDigsAux fuel (n / 10) ++ [48 + n % 10]

/-- Decimal digit bytes of a natural number. -/
def natDigs (n : Nat) : List Nat := natDigsAux (n + 1) n

/-- Model of `strconv.AppendInt(buf, v, 10)`: decimal representation with a
leading minus sign for negative values. -/
def intBytes (i : Int) : List Nat :=
  if i < 0 then 45 :: natDigs i.natAbs else natDigs i.toNat

/-- Zero-padded decimal of width `w` (more digits when the value needs
them), modelling the `appendInt(b, v, w)` helper of Go's time formatting. -/
def appendIntPad (v w : Nat) : List Nat :=
  List.replicate (w - (natDigs v).length) 48 ++ natDigs v

/-- Model of Go `time.Time` restricted to what the policy code reads:
the wall-clock fields down to millisecond precision (the format string
`2006-01-02T15:04:05.999Z` renders nothing finer). -/
structure GoTime where
  year : Nat
  month : Nat
  day : Nat
  hour : Nat
  minute : Nat
  second : Nat
  millis : Nat
deriving DecidableEq

/-- The zero `time.Time`: January 1, year 1, 00:00:00.000 (`IsZero` of a
`time.Time` tests for exactly this instant). -/
def goZeroTime : GoTime := ⟨1, 1, 1, 0, 0, 0, 0⟩

/-- Fractional-second part produced by the `.999` fragment of the layout
`2006-01-02T15:04:05.999Z`: up to three millisecond digits with trailing
zeros removed, and nothing at all (not even the dot) when the fraction is
zero. -/
def fracBytes (ms : Nat) : List Nat :=
  if ms % 1000 = 0 then []
  else if ms % 10 ≠ 0 then [46, 48 + ms / 100 % 10, 48 + ms / 10 % 10, 48 + ms % 10]
  else if ms % 100 ≠ 0 then [46, 48 + ms / 100 % 10, 48 + ms / 10 % 10]
  else [46, 48 + ms / 100 % 10]

/-- Date-and-time part of the layout `2006-01-02T15:04:05.999Z` (everything
before the fractional seconds). -/
def datePartBytes (t : GoTime) : List Nat :=
  appendIntPad t.year 4 ++ [45] ++ appendIntPad t.month 2 ++ [45] ++
  appendIntPad t.day 2 ++ [84] ++ appendIntPad t.hour 2 ++ [58] ++
  appendIntPad t.minute 2 ++ [58] ++ appendIntPad t.second 2

/-- Model of `t.AppendFormat(buf, expirationDateFormat)` with
`expirationDateFormat = "2006-01-02T15:04:05.999Z"` (part_000 line 15): the
trailing `Z` is a literal byte of the layout, not a zone directive. -/
def expirationBytes (t : GoTime) : List Nat := datePartBytes t ++ fracBytes t.millis ++ [90]

/-- The `policyCondition` struct (part_000 lines 29-33). -/
structure policyCondition where
  matchType : List Nat
  condition : List Nat
  value : List Nat
deriving DecidableEq

/-- The anonymous content-length-range struct of `PostPolicy`
(part_000 lines 44-47); `int64` fields are modelled as `Int`. -/
structure ContentLengthRange where
  min : Int
  max : Int
deriving DecidableEq

/-- The `PostPolicy` struct (part_000 lines 37-51).  The Go
`map[string]string` form data is modelled as an association list updated in
place (Go map semantics: one binding per key, assignment overwrites). -/
structure PostPolicy where
  expiration : GoTime
  conditions : List policyCondition
  contentLengthRange : ContentLengthRange
  formData : List (List Nat × List Nat)
deriving DecidableEq

/-- `NewPostPolicy` (part_000 lines 54-59): empty conditions, empty form
data, zero-valued expiration and content-length range. -/
def NewPostPolicy : PostPolicy :=
  { expiration := goZeroTime, conditions := [], contentLengthRange := ⟨0, 0⟩, formData := [] }

/-- The error values the code produces: `InvalidArgumentError` from
errors.go, and plain `errors.New` errors from the orchestration step. -/
inductive GoErr where
| invalidArgument (msg : List Nat)
| goError (msg : List Nat)
deriving DecidableEq

/-- Map assignment `m[k] = v`: overwrite the binding if the key is present,
otherwise add it. -/
def fdSet : List (List Nat × List Nat) → List Nat → List Nat → List (List Nat × List Nat)
| [], k, v => [(k, v)]
| (k', v') :: rest, k, v =>
  if k' = k then (k, v) :: rest else (k', v') :: fdSet rest k v

/-- Map lookup `m[k]` (presence form). -/
def fdGet : List (List Nat × List Nat) → List Nat → Option (List Nat)
| [], _ => none
| (k', v') :: rest, k => if k' = k then some v' else fdGet rest k

/-- `addNewPolicy` (part_000 lines 176-182): reject a condition with any
empty field, else append it to the conditions slice. -/
def addNewPolicy (p : PostPolicy) (policyCond : policyCondition) : Option GoErr × PostPolicy :=
  if policyCond.matchType = [] ∨ policyCond.condition = [] ∨ policyCond.value = [] then
    (some (GoErr.invalidArgument (bs ("policy fields are empty"))), p)
  else
    (none, { p with conditions := p.conditions ++ [policyCond] })

/-- `SetExpires` (part_000 lines 62-68). -/
def SetExpires (p : PostPolicy) (t : GoTime) : Option GoErr × PostPolicy :=
  if t = goZeroTime then (some (GoErr.invalidArgument (bs ("no expiry time set"))), p)
  else (none, { p with expiration := t })

/-- `SetKey` (part_000 lines 71-85). -/
def SetKey (p : PostPolicy) (key : List Nat) : Option GoErr × PostPolicy :=
  if allSpace key = true ∨ key = [] then
    (some (GoErr.invalidArgument (bs ("object name is empty"))), p)
  else
    match addNewPolicy p ⟨bs ("eq"), bs ("$key"), key⟩ with
    | (some e, p') => (some e, p')
    | (none, p') => (none, { p' with formData := fdSet p'.formData (bs ("key")) key })

/-- `SetKeyStartsWith` (part_000 lines 89-103). -/
def SetKeyStartsWith (p : PostPolicy) (keyStartsWith : List Nat) : Option GoErr × PostPolicy :=
  if allSpace keyStartsWith = true ∨ keyStartsWith = [] then
    (some (GoErr.invalidArgument (bs ("object prefix is empty"))), p)
  else
    match addNewPolicy p ⟨bs ("starts-with"), bs ("$key"), keyStartsWith⟩ with
    | (some e, p') => (some e, p')
    | (none, p') => (none, { p' with formData := fdSet p'.formData (bs ("key")) keyStartsWith })

/-- `SetBucket` (part_000 lines 106-120). -/
def SetBucket (p : PostPolicy) (bucketName : List Nat) : Option GoErr × PostPolicy :=
  if allSpace bucketName = true ∨ bucketName = [] then
    (some (GoErr.invalidArgument (bs ("bucket name is empty"))), p)
  else
    match addNewPolicy p ⟨bs ("eq"), bs ("$bucket"), bucketName⟩ with
    | (some e, p') => (some e, p')
    | (none, p') => (none, { p' with formData := fdSet p'.formData (bs ("bucket")) bucketName })

/-- `SetContentType` (part_000 lines 124-138). -/
def SetContentType (p : PostPolicy) (contentType : List Nat) : Option GoErr × PostPolicy :=
  if allSpace contentType = true ∨ contentType = [] then
    (some (GoErr.invalidArgument (bs ("no content type specified"))), p)
  else
    match addNewPolicy p ⟨bs ("eq"), bs ("$Content-Type"), contentType⟩ with
    | (some e, p') => (some e, p')
    | (none, p') =>
      (none, { p' with formData := fdSet p'.formData (bs ("Content-Type")) contentType })

/-- `SetContentLengthRange` (part_000 lines 142-155). -/
def SetContentLengthRange (p : PostPolicy) (mn mx : Int) : Option GoErr × PostPolicy :=
  if mn > mx then
    (some (GoErr.invalidArgument (bs ("minimum limit is larger than maximum limit"))), p)
  else if mn < 0 then
    (some (GoErr.invalidArgument (bs ("minimum limit cannot be negative"))), p)
  else if mx < 0 then
    (some (GoErr.invalidArgument (bs ("maximum limit cannot be negative"))), p)
  else
    (none, { p with contentLengthRange := ⟨mn, mx⟩ })

/-- `SetSuccessStatusAction` (part_000 lines 159-173). -/
def SetSuccessStatusAction (p : PostPolicy) (status : List Nat) : Option GoErr × PostPolicy :=
  if allSpace status = true ∨ status = [] then
    (some (GoErr.invalidArgument (bs ("status is empty"))), p)
  else
    match addNewPolicy p ⟨bs ("eq"), bs ("$success_action_status"), status⟩ with
    | (some e, p') => (some e, p')
    | (none, p') =>
      (none, { p' with formData := fdSet p'.formData (bs ("success_action_status")) status })

/-- Serialized form of one condition triple (marshalJSON loop body,
part_000 lines 210-221): the match type is appended raw, the condition and
value fields go through `safeAppendString`. -/
def condBytes (c : policyCondition) : List Nat :=
  bs ("[\"") ++ c.matchType ++ bs ("\",\"") ++ safeAppendString c.condition ++
  bs ("\",\"") ++ safeAppendString c.value ++ bs ("\"]")

/-- The content-length-range condition array (part_000 lines 202-206):
bare integers, no quoting. -/
def rangeCondBytes (mn mx : Int) : List Nat :=
  bs ("[\"content-length-range\",") ++ intBytes mn ++ [44] ++ intBytes mx ++ [93]

/-- Whether marshalJSON emits the content-length-range condition
(part_000 line 201): either stored bound nonzero. -/
def rangeIsSet (p : PostPolicy) : Prop :=
  p.contentLengthRange.min ≠ 0 ∨ p.contentLengthRange.max ≠ 0

instance (p : PostPolicy) : Decidable (rangeIsSet p) := by
  unfold rangeIsSet; infer_instance

/-- The bytes the range check contributes to the output: the condition
array when a bound is nonzero, nothing otherwise. -/
def rangePart (p : PostPolicy) : List Nat :=
  if rangeIsSet p then rangeCondBytes p.contentLengthRange.min p.contentLengthRange.max else []

/-- The conditions loop of marshalJSON (part_000 lines 210-221).  The
`insertComma` flag is set once before the loop (true exactly when the range
condition was emitted) and — as in the source — never updated inside the
loop, so it uniformly decides whether each condition is preceded by a
comma. -/
def condsLoop (insertComma : Bool) : List policyCondition → List Nat
| [] => []
| c :: rest => (if insertComma then [44] else []) ++ condBytes c ++ condsLoop insertComma rest

/-- `marshalJSON` (part_000 lines 190-224). -/
def marshalJSON (p : PostPolicy) : List Nat :=
  bs ("\x7b\"expiration\":\"") ++ expirationBytes p.expiration ++ bs ("\",\"conditions\":[") ++
  rangePart p ++ condsLoop (decide (rangeIsSet p)) p.conditions ++ bs ("]\x7d")

/-- One base64 output byte of the standard alphabet. -/
def b64Char (n : Nat) : Nat :=
  if n < 26 then 65 + n
  else if n < 52 then 97 + (n - 26)
  else if n < 62 then 48 + (n - 52)
  else if n = 62 then 43
  else 47

/-- Standard base64 with padding (`encoding/base64` StdEncoding), over byte
lists. -/
def base64Encode : List Nat → List Nat
| a :: b :: c :: rest =>
  b64Char (a / 4) :: b64Char (a % 4 * 16 + b / 16) :: b64Char (b % 16 * 4 + c / 64) ::
    b64Char (c % 64) :: base64Encode rest
| [a, b] => [b64Char (a / 4), b64Char (a % 4 * 16 + b / 16), b64Char (b % 16 * 4), 61]
| [a] => [b64Char (a / 4), b64Char (a % 4 * 16), 61, 61]
| [] => []

/-- The `base64` method of PostPolicy (part_000 lines 227-229). -/
def postPolicyBase64 (p : PostPolicy) : List Nat := base64Encode (marshalJSON p)

/-- Truncation to 32 bits. -/
def w32 (n : Nat) : Nat := n % 4294967296

/-- 32-bit left rotation (operands below 2^32). -/
def rotl (n x : Nat) : Nat := (x * 2 ^ n + x / 2 ^ (32 - n)) % 4294967296

/-- 32-bit complement (operand below 2^32). -/
def not32 (x : Nat) : Nat := 4294967295 - x

/-- Big-endian 32-bit words from bytes (length a multiple of 4). -/
def beWords : List Nat → List Nat
| a :: b :: c :: d :: rest => (a * 16777216 + b * 65536 + c * 256 + d) :: beWords rest
| _ => []

/-- Big-endian bytes of a 32-bit word. -/
def be32 (n : Nat) : List Nat := [n / 16777216 % 256, n / 65536 % 256, n / 256 % 256, n % 256]

/-- Big-endian bytes of a 64-bit value. -/
def be64 (n : Nat) : List Nat :=
  [n / 2 ^ 56 % 256, n / 2 ^ 48 % 256, n / 2 ^ 40 % 256, n / 2 ^ 32 % 256,
   n / 2 ^ 24 % 256, n / 2 ^ 16 % 256, n / 2 ^ 8 % 256, n % 256]

/-- SHA-1 message padding: a 0x80 byte, zeros to 56 mod 64, then the bit
length in 64-bit big-endian form. -/
def sha1Pad (msg : List Nat) : List Nat :=
  msg ++ [128] ++ List.replicate ((119 - msg.length % 64) % 64) 0 ++ be64 (msg.length * 8)

/-- Split into 64-byte blocks (fueled; fuel = length suffices). -/
def chunks64Aux : Nat → List Nat → List (List Nat)
| _, [] => []
| 0, _ => []
| fuel + 1, l => l.take 64 :: chunks64Aux fuel (l.drop 64)

/-- Split a byte list into 64-byte blocks. -/
def chunks64 (l : List Nat) : List (List Nat) := chunks64Aux l.length l

/-- Extend 16 schedule words by `k` more per the SHA-1 recurrence. -/
def sha1Extend : Nat → List Nat → List Nat
| 0, ws => ws
| k + 1, ws =>
  let n := ws.length
  sha1Extend k (ws ++ [rotl 1 ((ws.getD (n - 3) 0) ^^^ (ws.getD (n - 8) 0) ^^^
    (ws.getD (n - 14) 0) ^^^ (ws.getD (n - 16) 0))])

/-- SHA-1 round function by round index. -/
def sha1F (t b c d : Nat) : Nat :=
  if t < 20 then (b &&& c) ||| (not32 b &&& d)
  else if t < 40 then b ^^^ c ^^^ d
  else if t < 60 then (b &&& c) ||| (b &&& d) ||| (c &&& d)
  else b ^^^ c ^^^ d

/-- SHA-1 round constant by round index. -/
def sha1K (t : Nat) : Nat :=
  if t < 20 then 1518500249
  else if t < 40 then 1859775393
  else if t < 60 then 2400959708
  else 3395469782

/-- The 80 SHA-1 rounds over a schedule. -/
def sha1Rounds : List Nat → Nat → Nat × Nat × Nat × Nat × Nat → Nat × Nat × Nat × Nat × Nat
| [], _, st => st
| w :: ws, t, (a, b, c, d, e) =>
  sha1Rounds ws (t + 1) (w32 (rotl 5 a + sha1F t b c d + e + sha1K t + w), a, rotl 30 b, c, d)

/-- One SHA-1 block step. -/
def sha1Block (h : Nat × Nat × Nat × Nat × Nat) (blk : List Nat) : Nat × Nat × Nat × Nat × Nat :=
  let ws := sha1Extend 64 (beWords blk)
  match sha1Rounds ws 0 h with
  | (a, b, c, d, e) =>
    (w32 (h.1 + a), w32 (h.2.1 + b), w32 (h.2.2.1 + c), w32 (h.2.2.2.1 + d), w32 (h.2.2.2.2 + e))

/-- SHA-1 digest of a byte list (model of `crypto/sha1`). -/
def sha1 (msg : List Nat) : List Nat :=
  match (chunks64 (sha1Pad msg)).foldl sha1Block
      (1732584193, 4023233417, 2562383102, 271733878, 3285377520) with
  | (a, b, c, d, e) => be32 a ++ be32 b ++ be32 c ++ be32 d ++ be32 e

/-- HMAC keyed by `key` over `msg` with SHA-1 (model of `crypto/hmac` with
`sha1.New`): long keys are hashed, the key is zero-padded to the 64-byte
block size, and the inner/outer pads are 0x36/0x5C. -/
def hmacSha1 (key msg : List Nat) : List Nat :=
  let k0 := if 64 < key.length then sha1 key else key
  let k := k0 ++ List.replicate (64 - k0.length) 0
  sha1 ((k.map (fun b => b ^^^ 92)) ++ sha1 ((k.map (fun b => b ^^^ 54)) ++ msg))

/-- `PostPresignSignatureV1` (src/signer/signer.go lines 10-15): base64 of
the HMAC-SHA1 digest of the base64 policy, keyed by the secret access
key. -/
def PostPresignSignatureV1 (policyBase64 secretAccessKey : List Nat) : List Nat :=
  base64Encode (hmacSha1 secretAccessKey policyBase64)

/-- One public setter invocation on the policy builder. -/
inductive PolicyOp where
| opSetExpires (t : GoTime)
| opSetKey (k : List Nat)
| opSetKeyStartsWith (k : List Nat)
| opSetBucket (b : List Nat)
| opSetContentType (ct : List Nat)
| opSetContentLengthRange (mn mx : Int)
| opSetSuccessStatusAction (st : List Nat)

/-- Dispatch one setter call. -/
def applyOp (p : PostPolicy) : PolicyOp → Option GoErr × PostPolicy
| .opSetExpires t => SetExpires p t
| .opSetKey k => SetKey p k
| .opSetKeyStartsWith k => SetKeyStartsWith p k
| .opSetBucket b => SetBucket p b
| .opSetContentType ct => SetContentType p ct
| .opSetContentLengthRange mn mx => SetContentLengthRange p mn mx
| .opSetSuccessStatusAction st => SetSuccessStatusAction p st

/-- Run a sequence of setter calls; a failing call leaves the builder
unchanged (the Go methods return an error before mutating). -/
def runOps (p : PostPolicy) : List PolicyOp → PostPolicy
| [] => p
| op :: ops => runOps (applyOp p op).2 ops

/-- Modelled from the spec: the condition (if any) that one setter call
appends when it succeeds, written from the spec's operation table. -/
def condOf : PolicyOp → Option policyCondition
| .opSetExpires _ => none
| .opSetKey k =>
  if allSpace k = true ∨ k = [] then none else some ⟨bs ("eq"), bs ("$key"), k⟩
| .opSetKeyStartsWith k =>
  if allSpace k = true ∨ k = [] then none else some ⟨bs ("starts-with"), bs ("$key"), k⟩
| .opSetBucket b =>
  if allSpace b = true ∨ b = [] then none else some ⟨bs ("eq"), bs ("$bucket"), b⟩
| .opSetContentType ct =>
  if allSpace ct = true ∨ ct = [] then none else some ⟨bs ("eq"), bs ("$Content-Type"), ct⟩
| .opSetContentLengthRange _ _ => none
| .opSetSuccessStatusAction st =>
  if allSpace st = true ∨ st = [] then none
  else some ⟨bs ("eq"), bs ("$success_action_status"), st⟩

/-- Modelled from the spec: the conditions a call sequence accumulates, in
call order. -/
def condsInCallOrder (ops : List PolicyOp) : List policyCondition := ops.filterMap condOf

/-- The parts of the `oss.Client` configuration the orchestration step
reads. -/
structure OssClientConfig where
  endpoint : List Nat
  isCname : Bool
  accessKeyID : List Nat
  accessKeySecret : List Nat

/-- Parsed URL; only the fields the orchestration step touches. -/
structure GoUrl where
  raw : List Nat
  path : List Nat
deriving DecidableEq

/-- Model of `url.Parse` on the configured endpoint.  The stdlib parser's
failure modes are not modelled (no claim depends on them); the parse keeps
the raw endpoint and starts with an empty path component. -/
def urlParse (s : List Nat) : Except GoErr GoUrl := Except.ok ⟨s, []⟩

/-- `PresignedPostPolicyV1` (src/signer/signer.go lines 12-42 of the
concatenated file): validates the builder's preconditions, derives the
target URL, stores the base64 policy, the access key id and the signature
into the form data, and returns URL plus form data. -/
def PresignedPostPolicyV1 (c : OssClientConfig) (p : PostPolicy) :
    Except GoErr (GoUrl × List (List Nat × List Nat)) :=
  if p.expiration = goZeroTime then
    Except.error (GoErr.goError (bs ("expiration time must be specified")))
  else if (fdGet p.formData (bs ("key"))).isNone then
    Except.error (GoErr.goError (bs ("object key must be specified")))
  else if (fdGet p.formData (bs ("bucket"))).isNone then
    Except.error (GoErr.goError (bs ("bucket name must be specified")))
  else
    let bucketName := (fdGet p.formData (bs ("bucket"))).getD []
    match urlParse c.endpoint with
    | Except.error e => Except.error e
    | Except.ok u =>
      let u' := if c.isCname then u else { u with path := 47 :: bucketName }
      let policyB64 := postPolicyBase64 p
      let fd1 := fdSet p.formData (bs ("policy")) policyB64
      let fd2 := fdSet fd1 (bs ("OSSAccessKeyId")) c.accessKeyID
      let fd3 := fdSet fd2 (bs ("signature")) (PostPresignSignatureV1 policyB64 c.accessKeySecret)
      Except.ok (u', fd3)

/-- Modelled from the spec: digit value of one ASCII byte, for the
round-trip timestamp parser. -/
def digVal (c : Nat) : Option Nat := if 48 ≤ c ∧ c ≤ 57 then some (c - 48) else none

/-- Modelled from the spec: parse two digits. -/
def parse2 : List Nat → Option (Nat × List Nat)
| c1 :: c2 :: rest =>
  match digVal c1, digVal c2 with
  | some a, some b => some (a * 10 + b, rest)
  | _, _ => none
| _ => none

/-- Modelled from the spec: parse four digits. -/
def parse4 : List Nat → Option (Nat × List Nat)
| c1 :: c2 :: c3 :: c4 :: rest =>
  match digVal c1, digVal c2, digVal c3, digVal c4 with
  | some a, some b, some c, some d => some (a * 1000 + b * 100 + c * 10 + d, rest)
  | _, _, _, _ => none
| _ => none

/-- Modelled from the spec: expect one literal byte. -/
def expectByte (c : Nat) : List Nat → Option (List Nat)
| x :: rest => if x = c then some rest else none
| [] => none

/-- Modelled from the spec: parse the optional fractional-second part
followed by the final literal Z, scaling one, two or three digits to
milliseconds. -/
def parseMillis : List Nat → Option Nat
| [z] => if z = 90 then some 0 else none
| dot :: t =>
  if dot = 46 then
    match t with
    | [a, z] =>
      if z = 90 then (digVal a).map (fun x => x * 100) else none
    | [a, b, z] =>
      if z = 90 then
        match digVal a, digVal b with
        | some x, some y => some (x * 100 + y * 10)
        | _, _ => none
      else none
    | [a, b, c, z] =>
      if z = 90 then
        match digVal a, digVal b, digVal c with
        | some x, some y, some w => some (x * 100 + y * 10 + w)
        | _, _, _ => none
      else none
    | _ => none
  else none
| [] => none

/-- Modelled from the spec: a timestamp parser for the serialized
expiration value, recovering the instant to millisecond precision. -/
def parseExpiration (s : List Nat) : Option GoTime := do
  let (y, s) ← parse4 s
  let s ← expectByte 45 s
  let (mo, s) ← parse2 s
  let s ← expectByte 45 s
  let (d, s) ← parse2 s
  let s ← expectByte 84 s
  let (h, s) ← parse2 s
  let s ← expectByte 58 s
  let (mi, s) ← parse2 s
  let s ← expectByte 58 s
  let (sec, s) ← parse2 s
  let ms ← parseMillis s
  pure ⟨y, mo, d, h, mi, sec, ms⟩

/-- An instant with in-range calendar fields and millisecond precision;
every value a Go `time.Time` can hold (within four-digit years) satisfies
this. -/
def validInstant (t : GoTime) : Prop :=
  1 ≤ t.year ∧ t.year ≤ 9999 ∧ 1 ≤ t.month ∧ t.month ≤ 12 ∧ 1 ≤ t.day ∧ t.day ≤ 31 ∧
  t.hour ≤ 23 ∧ t.minute ≤ 59 ∧ t.second ≤ 59 ∧ t.millis ≤ 999

instance (t : GoTime) : Decidable (validInstant t) := by
  unfold validInstant; infer_instance

theorem tryAddRuneSelf_of_lt : ∀ b < 128, tryAddRuneSelf b = some (escByteSpec b) := by decide

theorem tryAddRuneSelf_of_ge (b : Nat) (h : 128 ≤ b) : tryAddRuneSelf b = none := by
  simp [tryAddRuneSelf, h]

theorem escapeGo_agrees (fuel : Nat) :
    ∀ s, safeAppendStringGo fuel s = escapeSpecGo fuel s := by
  induction fuel with
  | zero => intro s; cases s <;> rfl
  | succ n ih =>
    intro s
    cases s with
    | nil => rfl
    | cons b rest =>
      by_cases hb : b < 128
      · simp only [safeAppendStringGo, escapeSpecGo, tryAddRuneSelf_of_lt b hb, if_pos hb, ih]
      · have h1 : tryAddRuneSelf b = none := tryAddRuneSelf_of_ge b (by omega)
        simp only [safeAppendStringGo, escapeSpecGo, h1, if_neg hb]
        cases rest with
        | nil => split_ifs <;> simp [ih]
        | cons b1 r1 =>
          cases r1 with
          | nil => split_ifs <;> simp [ih]
          | cons b2 r2 =>
            cases r2 with
            | nil => split_ifs <;> simp [ih]
            | cons b3 r3 => split_ifs <;> simp [ih]

/-- C1: the escaping applied by serialization to condition and value
fields (the source's `safeAppendString`) escapes backslash and double quote
with a leading backslash, turns newline, carriage return and tab into their
two-character escapes, renders every other byte below 0x20 as a lowercase
unicode escape, replaces each invalid UTF-8 byte with the replacement
character escape, and passes every other byte — valid multi-byte UTF-8
sequences included — through unchanged (the rule captured byte for byte by
`escapeSpec`). -/
theorem claim1_escaping_matches_spec : ∀ s, safeAppendString s = escapeSpec s :=
  fun s => escapeGo_agrees s.length s

theorem natDigsAux_irrel (f1 : Nat) :
    ∀ f2 n, n < f1 → n < f2 → natDigsAux f1 n = natDigsAux f2 n := by
  induction f1 with
  | zero => intro f2 n h; omega
  | succ m ih =>
    intro f2 n h1 h2
    cases f2 with
    | zero => omega
    | succ m2 =>
      simp only [natDigsAux]
      split
      · rfl
      · have hn : 0 < n := by omega
        have hd : n / 10 < n := Nat.div_lt_self hn (by omega)
        rw [ih m2 (n / 10) (by omega) (by omega)]

theorem natDigs_one (n : Nat) (h : n < 10) : natDigs n = [48 + n] := by
  simp [natDigs, natDigsAux, h]

theorem natDigs_two (n : Nat) (h1 : 10 ≤ n) (h2 : n < 100) :
    natDigs n = [48 + n / 10, 48 + n % 10] := by
  have st : natDigs n = natDigsAux n (n / 10) ++ [48 + n % 10] := by
    simp [natDigs, natDigsAux]; omega
  rw [st, natDigsAux_irrel n (n / 10 + 1) (n / 10) (by omega) (by omega)]
  have h10 : n / 10 < 10 := by omega
  simp [natDigsAux, h10]

theorem natDigs_three (n : Nat) (h1 : 100 ≤ n) (h2 : n < 1000) :
    natDigs n = [48 + n / 100, 48 + n / 10 % 10, 48 + n % 10] := by
  have st : natDigs n = natDigsAux n (n / 10) ++ [48 + n % 10] := by
    simp [natDigs, natDigsAux]; omega
  rw [st, natDigsAux_irrel n (n / 10 + 1) (n / 10) (by omega) (by omega),
    show natDigsAux (n / 10 + 1) (n / 10)
      = natDigsAux (n / 10) (n / 10 / 10) ++ [48 + n / 10 % 10] by
        simp [natDigsAux]; omega,
    natDigsAux_irrel (n / 10) (n / 10 / 10 + 1) (n / 10 / 10) (by omega) (by omega)]
  have h10 : n / 10 / 10 < 10 := by omega
  simp [natDigsAux, h10]
  omega

theorem natDigs_four (n : Nat) (h1 : 1000 ≤ n) (h2 : n < 10000) :
    natDigs n = [48 + n / 1000, 48 + n / 100 % 10, 48 + n / 10 % 10, 48 + n % 10] := by
  have st : natDigs n = natDigsAux n (n / 10) ++ [48 + n % 10] := by
    simp [natDigs, natDigsAux]; omega
  rw [st, natDigsAux_irrel n (n / 10 + 1) (n / 10) (by omega) (by omega),
    show natDigsAux (n / 10 + 1) (n / 10)
      = natDigsAux (n / 10) (n / 10 / 10) ++ [48 + n / 10 % 10] by
        simp [natDigsAux]; omega,
    natDigsAux_irrel (n / 10) (n / 10 / 10 + 1) (n / 10 / 10) (by omega) (by omega),
    show natDigsAux (n / 10 / 10 + 1) (n / 10 / 10)
      = natDigsAux (n / 10 / 10) (n / 10 / 10 / 10) ++ [48 + n / 10 / 10 % 10] by
        simp [natDigsAux]; omega,
    natDigsAux_irrel (n / 10 / 10) (n / 10 / 10 / 10 + 1) (n / 10 / 10 / 10)
      (by omega) (by omega)]
  have h10 : n / 10 / 10 / 10 < 10 := by omega
  simp [natDigsAux, h10]
  omega

theorem appendIntPad_two (n : Nat) (h : n < 100) :
    appendIntPad n 2 = [48 + n / 10, 48 + n % 10] := by
  by_cases h1 : n < 10
  · rw [appendIntPad, natDigs_one n h1]
    simp [List.replicate]
    omega
  · rw [appendIntPad, natDigs_two n (by omega) h]
    simp [List.replicate]

theorem appendIntPad_four (n : Nat) (h : n < 10000) :
    appendIntPad n 4 = [48 + n / 1000, 48 + n / 100 % 10, 48 + n / 10 % 10, 48 + n % 10] := by
  by_cases h1 : n < 10
  · rw [appendIntPad, natDigs_one n h1]
    simp [List.replicate]
    omega
  · by_cases h2 : n < 100
    · rw [appendIntPad, natDigs_two n (by omega) h2]
      simp [List.replicate]
      omega
    · by_cases h3 : n < 1000
      · rw [appendIntPad, natDigs_three n (by omega) h3]
        simp [List.replicate]
        omega
      · rw [appendIntPad, natDigs_four n (by omega) h]
        simp [List.replicate]

theorem digVal_digit (k : Nat) (h : k ≤ 9) : digVal (48 + k) = some k := by
  unfold digVal
  rw [if_pos (by omega)]
  congr 1
  omega

theorem parse2_pad (n : Nat) (h : n < 100) (rest : List Nat) :
    parse2 (appendIntPad n 2 ++ rest) = some (n, rest) := by
  rw [appendIntPad_two n h]
  simp [parse2, digVal_digit (n / 10) (by omega), digVal_digit (n % 10) (by omega)]
  omega

theorem parse4_pad (n : Nat) (h : n < 10000) (rest : List Nat) :
    parse4 (appendIntPad n 4 ++ rest) = some (n, rest) := by
  rw [appendIntPad_four n h]
  simp [parse4, digVal_digit (n / 1000) (by omega), digVal_digit (n / 100 % 10) (by omega),
    digVal_digit (n / 10 % 10) (by omega), digVal_digit (n % 10) (by omega)]
  omega

theorem expectByte_cons (c : Nat) (rest : List Nat) : expectByte c (c :: rest) = some rest := by
  simp [expectByte]

theorem parseMillis_frac (ms : Nat) (h : ms < 1000) :
    parseMillis (fracBytes ms ++ [90]) = some ms := by
  by_cases h0 : ms % 1000 = 0
  · have h00 : ms = 0 := by omega
    subst h00
    decide
  · by_cases h1 : ms % 10 = 0
    · by_cases h2 : ms % 100 = 0
      · rw [fracBytes, if_neg h0, if_neg (by omega), if_neg (by omega)]
        simp [parseMillis, digVal_digit (ms / 100 % 10) (by omega)]
        omega
      · rw [fracBytes, if_neg h0, if_neg (by omega), if_pos (by omega)]
        simp [parseMillis, digVal_digit (ms / 100 % 10) (by omega),
          digVal_digit (ms / 10 % 10) (by omega)]
        omega
    · rw [fracBytes, if_neg h0, if_pos (by omega)]
      simp [parseMillis, digVal_digit (ms / 100 % 10) (by omega),
        digVal_digit (ms / 10 % 10) (by omega), digVal_digit (ms % 10) (by omega)]
      omega

theorem parseExpiration_roundTrip (t : GoTime) (hv : validInstant t) :
    parseExpiration (expirationBytes t) = some t := by
  obtain ⟨hy1, hy2, hm1, hm2, hd1, hd2, hh, hmi, hs, hms⟩ := hv
  simp [parseExpiration, expirationBytes, datePartBytes, List.append_assoc,
    parse4_pad t.year (by omega), parse2_pad t.month (by omega), parse2_pad t.day (by omega),
    parse2_pad t.hour (by omega), parse2_pad t.minute (by omega),
    parse2_pad t.second (by omega), expectByte_cons,
    parseMillis_frac t.millis (by omega)]

/-- C2 counterexample: with expiration 2017-01-23T04:05:06.000 (exactly
zero milliseconds) the serialized document does not begin with a timestamp
carrying three fractional digits: the code emits `06Z`, not `06.000Z`. -/
theorem claim2_counterexample :
    (bs ("\x7b\"expiration\":\"2017-01-23T04:05:06.000Z")).isPrefixOf
      (marshalJSON ((SetExpires NewPostPolicy ⟨2017, 1, 23, 4, 5, 6, 0⟩).2)) = false ∧
    marshalJSON ((SetExpires NewPostPolicy ⟨2017, 1, 23, 4, 5, 6, 0⟩).2) =
      bs ("\x7b\"expiration\":\"2017-01-23T04:05:06Z\",\"conditions\":[]\x7d") := by
  exact ⟨by decide, by decide⟩

/-- C2 (amended): every serialized document begins with
the expiration header and the opening of the conditions array, where the
timestamp follows the layout `2006-01-02T15:04:05.999Z`: when the
millisecond value is zero there is no fractional part at all (no dot), and
otherwise one to three fractional digits appear (trailing zeros
suppressed), followed by a literal Z. -/
theorem claim2_expiration_header (p : PostPolicy) :
    (∃ rest, marshalJSON p = bs ("\x7b\"expiration\":\"") ++ expirationBytes p.expiration ++
      bs ("\",\"conditions\":[") ++ rest) ∧
    (p.expiration.millis = 0 →
      expirationBytes p.expiration = datePartBytes p.expiration ++ [90]) ∧
    (p.expiration.millis ≠ 0 → p.expiration.millis ≤ 999 →
      ∃ ds, ds ≠ [] ∧ ds.length ≤ 3 ∧
        expirationBytes p.expiration = datePartBytes p.expiration ++ (46 :: ds) ++ [90]) := by
  refine ⟨⟨rangePart p ++ condsLoop (decide (rangeIsSet p)) p.conditions ++ bs ("]\x7d"), ?_⟩,
    ?_, ?_⟩
  · simp [marshalJSON, List.append_assoc]
  · intro h0
    simp [expirationBytes, fracBytes, h0]
  · intro h1 h2
    by_cases ha : p.expiration.millis % 10 ≠ 0
    · refine ⟨[48 + p.expiration.millis / 100 % 10, 48 + p.expiration.millis / 10 % 10,
        48 + p.expiration.millis % 10], by simp, by simp, ?_⟩
      rw [expirationBytes, fracBytes, if_neg (by omega), if_pos ha]
    · by_cases hb : p.expiration.millis % 100 ≠ 0
      · refine ⟨[48 + p.expiration.millis / 100 % 10, 48 + p.expiration.millis / 10 % 10],
          by simp, by simp, ?_⟩
        rw [expirationBytes, fracBytes, if_neg (by omega), if_neg ha, if_pos hb]
      · refine ⟨[48 + p.expiration.millis / 100 % 10], by simp, by simp, ?_⟩
        rw [expirationBytes, fracBytes, if_neg (by omega), if_neg ha, if_neg hb]

theorem claim2_expiration_header_witness :
    expirationBytes ({ NewPostPolicy with
        expiration := (⟨2017, 1, 23, 4, 5, 6, 0⟩ : GoTime) } : PostPolicy).expiration =
      datePartBytes ({ NewPostPolicy with
        expiration := (⟨2017, 1, 23, 4, 5, 6, 0⟩ : GoTime) } : PostPolicy).expiration ++ [90] ∧
    (∃ ds, ds ≠ [] ∧ ds.length ≤ 3 ∧
      expirationBytes ({ NewPostPolicy with
          expiration := (⟨2017, 1, 23, 4, 5, 6, 120⟩ : GoTime) } : PostPolicy).expiration =
        datePartBytes ({ NewPostPolicy with
          expiration := (⟨2017, 1, 23, 4, 5, 6, 120⟩ : GoTime) } : PostPolicy).expiration ++
          (46 :: ds) ++ [90]) :=
  ⟨(claim2_expiration_header { NewPostPolicy with
      expiration := ⟨2017, 1, 23, 4, 5, 6, 0⟩ }).2.1 (by decide),
   (claim2_expiration_header { NewPostPolicy with
      expiration := ⟨2017, 1, 23, 4, 5, 6, 120⟩ }).2.2 (by decide) (by decide)⟩

/-- C4: the signing operation equals standard base64 (with padding) of the
HMAC-SHA1 digest of the base64 policy bytes keyed by the secret key bytes;
as a plain function of its two inputs it is total and deterministic. -/
theorem claim4_signature_is_hmacSha1_base64 (policyB64 secret : List Nat) :
    PostPresignSignatureV1 policyB64 secret = base64Encode (hmacSha1 secret policyB64) := rfl

/-- C5: setting the expiration to the zero instant fails with
InvalidArgument; every non-zero instant is stored, succeeds, and the
expiration value embedded by serialization parses back to exactly the same
instant at millisecond precision. -/
theorem claim5_expiration_roundTrip (p : PostPolicy) (t : GoTime) :
    SetExpires p goZeroTime =
      (some (GoErr.invalidArgument (bs ("no expiry time set"))), p) ∧
    (t ≠ goZeroTime → validInstant t →
      SetExpires p t = (none, { p with expiration := t }) ∧
      parseExpiration (expirationBytes ((SetExpires p t).2).expiration) = some t) := by
  constructor
  · simp [SetExpires]
  · intro hne hv
    have hset : SetExpires p t = (none, { p with expiration := t }) := by
      simp [SetExpires, hne]
    exact ⟨hset, by rw [hset]; exact parseExpiration_roundTrip t hv⟩

theorem claim5_expiration_roundTrip_witness :
    SetExpires NewPostPolicy ⟨2017, 1, 23, 4, 5, 6, 120⟩ =
      (none, { NewPostPolicy with expiration := ⟨2017, 1, 23, 4, 5, 6, 120⟩ }) ∧
    parseExpiration
      (expirationBytes ((SetExpires NewPostPolicy ⟨2017, 1, 23, 4, 5, 6, 120⟩).2).expiration) =
      some ⟨2017, 1, 23, 4, 5, 6, 120⟩ :=
  (claim5_expiration_roundTrip NewPostPolicy ⟨2017, 1, 23, 4, 5, 6, 120⟩).2
    (by decide) (by decide)

/-- C7: `SetKey` on the empty string or on an all-whitespace string fails
with InvalidArgument and returns the builder completely unchanged —
conditions and form data included. -/
theorem claim7_setKey_empty_fails (p : PostPolicy) (key : List Nat)
    (h : allSpace key = true ∨ key = []) :
    SetKey p key = (some (GoErr.invalidArgument (bs ("object name is empty"))), p) := by
  rw [SetKey, if_pos h]

theorem claim7_setKey_empty_fails_witness :
    SetKey NewPostPolicy (bs ("   ")) =
      (some (GoErr.invalidArgument (bs ("object name is empty"))), NewPostPolicy) ∧
    SetKey NewPostPolicy [] =
      (some (GoErr.invalidArgument (bs ("object name is empty"))), NewPostPolicy) :=
  ⟨claim7_setKey_empty_fails NewPostPolicy (bs ("   ")) (Or.inl (by decide)),
   claim7_setKey_empty_fails NewPostPolicy [] (Or.inr rfl)⟩

/-- C8: an explicit `SetContentLengthRange(0,0)` succeeds and stores
`(0,0)`; serialization emits the content-length-range condition exactly
when one of the stored bounds is nonzero, so the resulting document is
byte-for-byte the one of a builder whose range was never set. -/
theorem claim8_zero_range_unset (p : PostPolicy) :
    SetContentLengthRange p 0 0 = (none, { p with contentLengthRange := ⟨0, 0⟩ }) ∧
    marshalJSON (SetContentLengthRange p 0 0).2 =
      marshalJSON { p with contentLengthRange := NewPostPolicy.contentLengthRange } ∧
    (∀ q : PostPolicy,
      rangePart q = [] ↔ q.contentLengthRange.min = 0 ∧ q.contentLengthRange.max = 0) := by
  have hset : SetContentLengthRange p 0 0 = (none, { p with contentLengthRange := ⟨0, 0⟩ }) := by
    rw [SetContentLengthRange, if_neg (by omega), if_neg (by omega), if_neg (by omega)]
  refine ⟨hset, by rw [hset]; rfl, ?_⟩
  intro q
  constructor
  · intro hq
    by_cases hr : rangeIsSet q
    · exfalso
      rw [rangePart, if_pos hr, rangeCondBytes] at hq
      have h1 := (List.append_eq_nil.mp hq).1
      have h2 := (List.append_eq_nil.mp h1).1
      have h3 := (List.append_eq_nil.mp h2).1
      have h4 : bs ("[\"content-length-range\",") = [] := (List.append_eq_nil.mp h3).1
      exact absurd h4 (by decide)
    · rw [rangeIsSet] at hr
      push_neg at hr
      exact hr
  · intro h
    rw [rangePart, if_neg]
    rw [rangeIsSet]
    push_neg
    exact h

/-- C9: the orchestration step fails with its own distinct error — and
returns no URL or form data — when the expiration is unset, when the form
data has no `key` entry, or when it has no `bucket` entry; the error value
does not depend on the client configuration, so the checks precede URL
derivation and signing. -/
theorem claim9_orchestration_preconditions (c : OssClientConfig) (p : PostPolicy) :
    (p.expiration = goZeroTime →
      PresignedPostPolicyV1 c p =
        Except.error (GoErr.goError (bs ("expiration time must be specified")))) ∧
    (p.expiration ≠ goZeroTime → fdGet p.formData (bs ("key")) = none →
      PresignedPostPolicyV1 c p =
        Except.error (GoErr.goError (bs ("object key must be specified")))) ∧
    (p.expiration ≠ goZeroTime → fdGet p.formData (bs ("key")) ≠ none →
      fdGet p.formData (bs ("bucket")) = none →
      PresignedPostPolicyV1 c p =
        Except.error (GoErr.goError (bs ("bucket name must be specified")))) ∧
    GoErr.goError (bs ("expiration time must be specified")) ≠
      GoErr.goError (bs ("object key must be specified")) ∧
    GoErr.goError (bs ("expiration time must be specified")) ≠
      GoErr.goError (bs ("bucket name must be specified")) ∧
    GoErr.goError (bs ("object key must be specified")) ≠
      GoErr.goError (bs ("bucket name must be specified")) := by
  refine ⟨?_, ?_, ?_, by decide, by decide, by decide⟩
  · intro h
    rw [PresignedPostPolicyV1, if_pos h]
  · intro h1 h2
    rw [PresignedPostPolicyV1, if_neg h1, if_pos (by simp [h2])]
  · intro h1 h2 h3
    rw [PresignedPostPolicyV1, if_neg h1,
      if_neg (by simpa [Option.isNone_iff_eq_none] using h2), if_pos (by simp [h3])]

theorem claim9_orchestration_preconditions_witness :
    PresignedPostPolicyV1 ⟨[], false, [], []⟩ NewPostPolicy =
      Except.error (GoErr.goError (bs ("expiration time must be specified"))) ∧
    PresignedPostPolicyV1 ⟨[], false, [], []⟩
        { NewPostPolicy with expiration := ⟨2017, 1, 23, 4, 5, 6, 0⟩ } =
      Except.error (GoErr.goError (bs ("object key must be specified"))) ∧
    PresignedPostPolicyV1 ⟨[], false, [], []⟩
        { NewPostPolicy with
          expiration := ⟨2017, 1, 23, 4, 5, 6, 0⟩
          formData := [(bs ("key"), bs ("k"))] } =
      Except.error (GoErr.goError (bs ("bucket name must be specified"))) :=
  ⟨(claim9_orchestration_preconditions ⟨[], false, [], []⟩ NewPostPolicy).1 (by decide),
   (claim9_orchestration_preconditions ⟨[], false, [], []⟩
      { NewPostPolicy with expiration := ⟨2017, 1, 23, 4, 5, 6, 0⟩ }).2.1
      (by decide) (by decide),
   (claim9_orchestration_preconditions ⟨[], false, [], []⟩
      { NewPostPolicy with
        expiration := ⟨2017, 1, 23, 4, 5, 6, 0⟩
        formData := [(bs ("key"), bs ("k"))] }).2.2.1
      (by decide) (by decide) (by decide)⟩

/-- C10: for all bounds with `0 ≤ min ≤ max`, `SetContentLengthRange`
succeeds and the only field it touches is the stored content-length range:
expiration, conditions and form data are unchanged, and no condition or
form field is written. -/
theorem claim10_setContentLengthRange_frame (p : PostPolicy) (mn mx : Int)
    (h0 : 0 ≤ mn) (h1 : mn ≤ mx) :
    SetContentLengthRange p mn mx = (none, { p with contentLengthRange := ⟨mn, mx⟩ }) := by
  rw [SetContentLengthRange, if_neg (by omega), if_neg (by omega), if_neg (by omega)]

theorem claim10_setContentLengthRange_frame_witness :
    SetContentLengthRange NewPostPolicy 5 9 =
      (none, { NewPostPolicy with contentLengthRange := ⟨5, 9⟩ }) :=
  claim10_setContentLengthRange_frame NewPostPolicy 5 9 (by decide) (by decide)

theorem runOps_conditions (ops : List PolicyOp) :
    ∀ p, (runOps p ops).conditions = p.conditions ++ condsInCallOrder ops := by
  induction ops with
  | nil => intro p; simp [runOps, condsInCallOrder]
  | cons op ops ih =>
    intro p
    rw [runOps, ih]
    simp only [condsInCallOrder, List.filterMap_cons]
    cases op with
    | opSetExpires t =>
      rw [applyOp, SetExpires]
      split <;> simp [condOf]
    | opSetKey k =>
      by_cases h : allSpace k = true ∨ k = []
      · simp [applyOp, SetKey, h, condOf]
      · have h3 : ¬(bs ("eq") = [] ∨ bs ("$key") = [] ∨ k = []) := by
          push_neg
          exact ⟨by decide, by decide, fun hk => h (Or.inr hk)⟩
        simp [applyOp, SetKey, h, addNewPolicy, h3, condOf]
    | opSetKeyStartsWith k =>
      by_cases h : allSpace k = true ∨ k = []
      · simp [applyOp, SetKeyStartsWith, h, condOf]
      · have h3 : ¬(bs ("starts-with") = [] ∨ bs ("$key") = [] ∨ k = []) := by
          push_neg
          exact ⟨by decide, by decide, fun hk => h (Or.inr hk)⟩
        simp [applyOp, SetKeyStartsWith, h, addNewPolicy, h3, condOf]
    | opSetBucket b =>
      by_cases h : allSpace b = true ∨ b = []
      · simp [applyOp, SetBucket, h, condOf]
      · have h3 : ¬(bs ("eq") = [] ∨ bs ("$bucket") = [] ∨ b = []) := by
          push_neg
          exact ⟨by decide, by decide, fun hk => h (Or.inr hk)⟩
        simp [applyOp, SetBucket, h, addNewPolicy, h3, condOf]
    | opSetContentType ct =>
      by_cases h : allSpace ct = true ∨ ct = []
      · simp [applyOp, SetContentType, h, condOf]
      · have h3 : ¬(bs ("eq") = [] ∨ bs ("$Content-Type") = [] ∨ ct = []) := by
          push_neg
          exact ⟨by decide, by decide, fun hk => h (Or.inr hk)⟩
        simp [applyOp, SetContentType, h, addNewPolicy, h3, condOf]
    | opSetContentLengthRange mn mx =>
      rw [applyOp, SetContentLengthRange]
      split
      · simp [condOf]
      · split <;> [simp [condOf]; split <;> simp [condOf]]
    | opSetSuccessStatusAction st =>
      by_cases h : allSpace st = true ∨ st = []
      · simp [applyOp, SetSuccessStatusAction, h, condOf]
      · have h3 : ¬(bs ("eq") = [] ∨ bs ("$success_action_status") = [] ∨ st = []) := by
          push_neg
          exact ⟨by decide, by decide, fun hk => h (Or.inr hk)⟩
        simp [applyOp, SetSuccessStatusAction, h, addNewPolicy, h3, condOf]

/-- C3: over every sequence of setter calls from a fresh builder, if the
resulting stored content-length range has a nonzero bound, the serialized
document places the bare-integer content-length-range condition first —
directly after the opening of the conditions array and before every other
condition, regardless of when the range setter was called — and then the
accumulated conditions in setter-call order. -/
theorem claim3_range_condition_first (ops : List PolicyOp)
    (h : rangeIsSet (runOps NewPostPolicy ops)) :
    marshalJSON (runOps NewPostPolicy ops) =
      bs ("\x7b\"expiration\":\"") ++
      expirationBytes (runOps NewPostPolicy ops).expiration ++
      bs ("\",\"conditions\":[") ++
      rangeCondBytes (runOps NewPostPolicy ops).contentLengthRange.min
        (runOps NewPostPolicy ops).contentLengthRange.max ++
      condsLoop true (runOps NewPostPolicy ops).conditions ++ bs ("]\x7d") ∧
    (runOps NewPostPolicy ops).conditions = condsInCallOrder ops := by
  constructor
  · rw [marshalJSON, rangePart, if_pos h, decide_eq_true h]
  · have hrc := runOps_conditions ops NewPostPolicy
    simpa [NewPostPolicy] using hrc

theorem claim3_range_condition_first_witness :
    marshalJSON (runOps NewPostPolicy
        [PolicyOp.opSetContentLengthRange 100 1000, PolicyOp.opSetBucket (bs ("b"))]) =
      bs ("\x7b\"expiration\":\"") ++
      expirationBytes (runOps NewPostPolicy
        [PolicyOp.opSetContentLengthRange 100 1000,
          PolicyOp.opSetBucket (bs ("b"))]).expiration ++
      bs ("\",\"conditions\":[") ++
      rangeCondBytes (runOps NewPostPolicy
        [PolicyOp.opSetContentLengthRange 100 1000,
          PolicyOp.opSetBucket (bs ("b"))]).contentLengthRange.min
        (runOps NewPostPolicy
        [PolicyOp.opSetContentLengthRange 100 1000,
          PolicyOp.opSetBucket (bs ("b"))]).contentLengthRange.max ++
      condsLoop true (runOps NewPostPolicy
        [PolicyOp.opSetContentLengthRange 100 1000,
          PolicyOp.opSetBucket (bs ("b"))]).conditions ++ bs ("]\x7d") ∧
    (runOps NewPostPolicy
        [PolicyOp.opSetContentLengthRange 100 1000,
          PolicyOp.opSetBucket (bs ("b"))]).conditions =
      condsInCallOrder
        [PolicyOp.opSetContentLengthRange 100 1000, PolicyOp.opSetBucket (bs ("b"))] :=
  claim3_range_condition_first
    [PolicyOp.opSetContentLengthRange 100 1000, PolicyOp.opSetBucket (bs ("b"))] (by decide)

/-- C6: in every builder state reachable from a fresh builder through the
public setters — all of which route any appended condition through the
`addNewPolicy` check — every stored condition triple has non-empty match
type, condition and value fields. -/
theorem claim6_conditions_fields_nonempty (ops : List PolicyOp) (c : policyCondition)
    (hc : c ∈ (runOps NewPostPolicy ops).conditions) :
    c.matchType ≠ [] ∧ c.condition ≠ [] ∧ c.value ≠ [] := by
  rw [runOps_conditions ops NewPostPolicy] at hc
  simp only [NewPostPolicy, List.nil_append] at hc
  obtain ⟨op, hop, hsome⟩ := List.mem_filterMap.mp hc
  cases op with
  | opSetExpires t => simp [condOf] at hsome
  | opSetKey k =>
    rw [condOf] at hsome
    split at hsome
    · exact absurd hsome (by simp)
    · next h =>
      push_neg at h
      cases Option.some.inj hsome
      exact ⟨(by decide : bs ("eq") ≠ []), (by decide : bs ("$key") ≠ []), h.2⟩
  | opSetKeyStartsWith k =>
    rw [condOf] at hsome
    split at hsome
    · exact absurd hsome (by simp)
    · next h =>
      push_neg at h
      cases Option.some.inj hsome
      exact ⟨(by decide : bs ("starts-with") ≠ []), (by decide : bs ("$key") ≠ []), h.2⟩
  | opSetBucket b =>
    rw [condOf] at hsome
    split at hsome
    · exact absurd hsome (by simp)
    · next h =>
      push_neg at h
      cases Option.some.inj hsome
      exact ⟨(by decide : bs ("eq") ≠ []), (by decide : bs ("$bucket") ≠ []), h.2⟩
  | opSetContentType ct =>
    rw [condOf] at hsome
    split at hsome
    · exact absurd hsome (by simp)
    · next h =>
      push_neg at h
      cases Option.some.inj hsome
      exact ⟨(by decide : bs ("eq") ≠ []), (by decide : bs ("$Content-Type") ≠ []), h.2⟩
  | opSetContentLengthRange mn mx => simp [condOf] at hsome
  | opSetSuccessStatusAction st =>
    rw [condOf] at hsome
    split at hsome
    · exact absurd hsome (by simp)
    · next h =>
      push_neg at h
      cases Option.some.inj hsome
      exact ⟨(by decide : bs ("eq") ≠ []), (by decide : bs ("$success_action_status") ≠ []), h.2⟩

theorem claim6_conditions_fields_nonempty_witness :
    (⟨bs ("eq"), bs ("$bucket"), bs ("b")⟩ : policyCondition).matchType ≠ [] ∧
    (⟨bs ("eq"), bs ("$bucket"), bs ("b")⟩ : policyCondition).condition ≠ [] ∧
    (⟨bs ("eq"), bs ("$bucket"), bs ("b")⟩ : policyCondition).value ≠ [] :=
  claim6_conditions_fields_nonempty [PolicyOp.opSetBucket (bs ("b"))]
    ⟨bs ("eq"), bs ("$bucket"), bs ("b")⟩ (by decide)
